import Mathlib

/-
Verification of the minerals_supply_scenarios repository.

The repository transforms a raw S&P mining-project export into multi-scenario
production forecast files.  The development below is a shallow embedding of the
three source modules:

  * data_collection.py   (get_sp_dataset)         -> the DataFrame model below
  * supply_scenarios.py  (estimate_production_from_historical,
                          create_scenarios_data, harmonize_production_data,
                          export_to_premise_scenarios)
  * utils.py             (group_production_by_two_attributes)

Pandas dataframes are modelled as ordered association lists; the numeric float
cells of the source are modelled as rationals, with missing values (NaN) as
Option / a dedicated cell constructor.  Python's `x in s` substring test,
`s.split(",")` and `str.strip()` are modelled character-by-character so that
every definition evaluates by kernel reduction.
-/

/- ### Generic list helpers -/

/-- First-occurrence deduplication, the order produced by `pandas.unique` /
`drop_duplicates` (keep the first occurrence of each element). -/
def uniqueFirstAux [DecidableEq α] (seen : List α) : List α → List α
  | [] => []
  | a :: l => if a ∈ seen then uniqueFirstAux seen l else a :: uniqueFirstAux (a :: seen) l

/-- First-occurrence deduplication of a list. -/
def uniqueFirst [DecidableEq α] (l : List α) : List α := uniqueFirstAux [] l

theorem mem_uniqueFirstAux [DecidableEq α] (l : List α) :
    ∀ (seen : List α) (a : α), a ∈ uniqueFirstAux seen l ↔ (a ∈ l ∧ a ∉ seen) := by
  induction l with
  | nil => intro seen a; simp [uniqueFirstAux]
  | cons b t ih =>
    intro seen a
    by_cases hb : b ∈ seen
    · rw [uniqueFirstAux, if_pos hb, ih]
      simp only [List.mem_cons]
      constructor
      · rintro ⟨ht, hs⟩; exact ⟨Or.inr ht, hs⟩
      · rintro ⟨hbt, hs⟩
        rcases hbt with rfl | h
        · exact absurd hb hs
        · exact ⟨h, hs⟩
    · rw [uniqueFirstAux, if_neg hb]
      simp only [List.mem_cons, ih]
      constructor
      · rintro (rfl | ⟨ht, hs⟩)
        · exact ⟨Or.inl rfl, hb⟩
        · exact ⟨Or.inr ht, fun hc => hs (Or.inr hc)⟩
      · rintro ⟨hbt, hs⟩
        rcases hbt with rfl | h
        · exact Or.inl rfl
        · by_cases hab : a = b
          · exact Or.inl hab
          · refine Or.inr ⟨h, fun hc => ?_⟩
            rcases hc with h1 | h1
            · exact hab h1
            · exact hs h1

theorem mem_uniqueFirst [DecidableEq α] {l : List α} {a : α} :
    a ∈ uniqueFirst l ↔ a ∈ l := by
  unfold uniqueFirst
  rw [mem_uniqueFirstAux]
  simp

/-- Insertion into a list sorted by the boolean relation `le` (used to model
Python's stable `sorted` and pandas groupby key ordering). -/
def insertSortedBy (le : α → α → Bool) (a : α) : List α → List α
  | [] => [a]
  | b :: l => if le a b then a :: b :: l else b :: insertSortedBy le a l

/-- Insertion sort by the boolean relation `le`. -/
def sortBy (le : α → α → Bool) (l : List α) : List α := l.foldr (insertSortedBy le) []

theorem insertSortedBy_perm (le : α → α → Bool) (a : α) (l : List α) :
    List.Perm (insertSortedBy le a l) (a :: l) := by
  induction l with
  | nil => rfl
  | cons b t ih =>
    by_cases h : le a b
    · simp [insertSortedBy, h]
    · simp only [insertSortedBy, if_neg h]
      exact (ih.cons b).trans (List.Perm.swap a b t)

theorem sortBy_perm (le : α → α → Bool) (l : List α) : List.Perm (sortBy le l) l := by
  induction l with
  | nil => rfl
  | cons a t ih =>
    exact (insertSortedBy_perm le a (sortBy le t)).trans (ih.cons a)

/-- Code-point lexicographic strict order on character lists, the order Python
compares strings in (`sorted`, pandas key sorting). -/
def lexLtChars : List Char → List Char → Bool
  | [], [] => false
  | [], _ :: _ => true
  | _ :: _, [] => false
  | a :: as, b :: bs =>
    if a.toNat < b.toNat then true
    else if b.toNat < a.toNat then false
    else lexLtChars as bs

/-- Python's `a < b` on strings. -/
def strLt (a b : String) : Bool := lexLtChars a.data b.data

/-- Python's `a <= b` on strings. -/
def strLe (a b : String) : Bool := strLt a b || decide (a = b)

/- ### Character-level string helpers (Python `split(",")` and `strip()`) -/

/-- Split a character list at every comma, the behaviour of Python's
`s.split(",")`. -/
def splitOnCommaAux (cur : List Char) : List Char → List (List Char)
  | [] => [cur.reverse]
  | c :: rest =>
    if c = ',' then cur.reverse :: splitOnCommaAux [] rest
    else splitOnCommaAux (c :: cur) rest

/-- Remove leading and trailing whitespace, the behaviour of Python's
`str.strip()`. -/
def trimChars (l : List Char) : List Char :=
  ((l.dropWhile Char.isWhitespace).reverse.dropWhile Char.isWhitespace).reverse

/-- `[product.strip() for product in s.split(",")]` from
`harmonize_production_data` (supply_scenarios.py line 298). -/
def splitProducts (s : String) : List String :=
  (splitOnCommaAux [] s.data).map (fun l => String.mk (trimChars l))

/- ### estimate_production_from_historical (supply_scenarios.py lines 207-227)

The source walks, for one project, the per-year production values in ascending
year order (production_dict preserves the year-sorted column order of
production_years), carrying the most recent non-missing value in prev_value.
`closure` models the project's "Project Closure Year" cell: `none` is NaN, and
in Python `nan >= int(current_year)` is False, which `closureGe` reproduces. -/

/-- The test `project_closure_year >= int(current_year)` of line 224; a NaN
closure year compares False against every year. -/
def closureGe (closure : Option Int) (year : Int) : Bool :=
  match closure with
  | some c => decide (year ≤ c)
  | none => false

/-- One project's walk of `estimate_production_from_historical`: the list holds
(year, value) pairs in ascending year order, `prev` is the running
`prev_value` (initially `none`).  A missing value is filled with `prev` exactly
when `prev` is known and the closure year is at least the current year;
`prev_value` is only updated by originally non-missing values. -/
def estimate_production_from_historical (closure : Option Int) (prev : Option ℚ) :
    List (Int × Option ℚ) → List (Int × Option ℚ)
  | [] => []
  | (year, v) :: rest =>
    match v with
    | some x => (year, some x) :: estimate_production_from_historical closure (some x) rest
    | none =>
      match prev with
      | none => (year, none) :: estimate_production_from_historical closure none rest
      | some p =>
        if closureGe closure year then
          (year, some p) :: estimate_production_from_historical closure (some p) rest
        else
          (year, none) :: estimate_production_from_historical closure (some p) rest

/-- The most recent non-missing value of a prefix, starting from `prev`
(the specification's "most recently known value"). -/
def lastKnown (prev : Option ℚ) (l : List (Int × Option ℚ)) : Option ℚ :=
  l.foldl (fun acc yv => match yv.2 with | some x => some x | none => acc) prev

/-- The value the estimation step leaves at a year with prior carried value
`prev`: a present value stays, a missing one is filled from `prev` exactly when
`prev` exists and the closure year is at least the year. -/
def fillValue (closure : Option Int) (prev : Option ℚ) (year : Int) (v : Option ℚ) : Option ℚ :=
  match v with
  | some x => some x
  | none =>
    match prev with
    | none => none
    | some p => if closureGe closure year then some p else none

theorem estimate_char_aux (closure : Option Int) (l : List (Int × Option ℚ)) :
    ∀ (prev : Option ℚ) (i : Nat),
      (estimate_production_from_historical closure prev l)[i]? =
        (l[i]?).map (fun yv => (yv.1, fillValue closure (lastKnown prev (l.take i)) yv.1 yv.2)) := by
  induction l with
  | nil => intro prev i; simp [estimate_production_from_historical]
  | cons hd t ih =>
    intro prev i
    obtain ⟨year, v⟩ := hd
    match v with
    | some x =>
      match i with
      | 0 => simp [estimate_production_from_historical, lastKnown, fillValue]
      | Nat.succ j =>
        simp only [estimate_production_from_historical, List.getElem?_cons_succ, List.take_succ_cons]
        rw [ih (some x) j]
        rfl
    | none =>
      match prev with
      | none =>
        match i with
        | 0 => simp [estimate_production_from_historical, lastKnown, fillValue]
        | Nat.succ j =>
          simp only [estimate_production_from_historical, List.getElem?_cons_succ, List.take_succ_cons]
          rw [ih none j]
          rfl
      | some p =>
        cases hc : closureGe closure year with
        | true =>
          match i with
          | 0 => simp [estimate_production_from_historical, hc, lastKnown, fillValue]
          | Nat.succ j =>
            simp only [estimate_production_from_historical, hc, if_true,
              List.getElem?_cons_succ, List.take_succ_cons]
            rw [ih (some p) j]
            rfl
        | false =>
          match i with
          | 0 => simp [estimate_production_from_historical, hc, lastKnown, fillValue]
          | Nat.succ j =>
            simp only [estimate_production_from_historical, hc, Bool.false_eq_true, if_false,
              List.getElem?_cons_succ, List.take_succ_cons]
            rw [ih (some p) j]
            rfl

/-- C2: for every project, the production-estimation walk visits the per-year
values in ascending order carrying the most recent non-missing value
(`lastKnown none` of the strict prefix); the value at position i is the
original value when present, and a missing value is replaced by the carried
value exactly when some earlier year was non-missing and the Project Closure
Year is at least the current year (`closureGe`), staying missing otherwise. -/
theorem C2_carry_forward_characterization (closure : Option Int)
    (l : List (Int × Option ℚ)) (i : Nat) :
    (estimate_production_from_historical closure none l)[i]? =
      (l[i]?).map (fun yv => (yv.1, fillValue closure (lastKnown none (l.take i)) yv.1 yv.2)) :=
  estimate_char_aux closure l none i

/-- C10: for a project whose "Project Closure Year" is missing (NaN), the
estimation step is the identity: `nan >= year` is False in Python, so the
carry-forward never fires and every missing value stays missing. -/
theorem C10_missing_closure_no_carry (prev : Option ℚ) (l : List (Int × Option ℚ)) :
    estimate_production_from_historical none prev l = l := by
  induction l generalizing prev with
  | nil => rfl
  | cons hd t ih =>
    obtain ⟨year, v⟩ := hd
    match v with
    | some x => simp [estimate_production_from_historical, ih]
    | none =>
      match prev with
      | none => simp [estimate_production_from_historical, ih]
      | some p => simp [estimate_production_from_historical, closureGe, ih]

/- ### harmonize_production_data (supply_scenarios.py lines 282-309)

Per-row core of the harmonization loop for a row whose Deposit Type has a rule
and whose Product is not missing.  `list_products` is computed once from the
row's original Product string (the iterrows snapshot); the source loop over
`Conversions` has no break, so every alternative key found among the original
candidates assigns Product and multiplies the year values again. -/

/-- One Deposit Type's entry of the production-harmonization document:
the canonical "Product" label and the "Conversions" map in document order. -/
structure HarmonizationRule where
  product : String
  conversions : List (String × ℚ)
deriving DecidableEq, Repr

/-- The body of the `for index, row in self.scenario_data.iterrows()` loop for
one row (Product string and time-step values), given the rule of the row's
Deposit Type. -/
def harmonize_production_row (rule : HarmonizationRule) (product : String)
    (vals : List ℚ) : String × List ℚ :=
  let list_products := splitProducts product
  if rule.product ∈ list_products then
    (rule.product, vals)
  else
    rule.conversions.foldl
      (fun acc conv =>
        if conv.1 ∈ list_products then (rule.product, acc.2.map (· * conv.2)) else acc)
      (product, vals)

/-- Product of the conversion factors of every alternative found among the
row's candidate products. -/
def matchedFactor (convs : List (String × ℚ)) (lp : List String) : ℚ :=
  ((convs.filter (fun c => decide (c.1 ∈ lp))).map Prod.snd).prod

theorem harmonize_foldl_char (target : String) (lp : List String)
    (convs : List (String × ℚ)) :
    ∀ (q : String) (vs : List ℚ),
      convs.foldl
          (fun acc conv => if conv.1 ∈ lp then (target, acc.2.map (· * conv.2)) else acc)
          (q, vs) =
        (if convs.any (fun c => decide (c.1 ∈ lp)) then target else q,
          vs.map (· * matchedFactor convs lp)) := by
  induction convs with
  | nil =>
    intro q vs
    simp [matchedFactor]
  | cons c cs ih =>
    intro q vs
    by_cases hc : c.1 ∈ lp
    · simp only [List.foldl_cons, if_pos hc, ih]
      rw [Prod.mk.injEq]
      refine ⟨?_, ?_⟩
      · by_cases h : cs.any (fun c => decide (c.1 ∈ lp)) <;> simp [List.any_cons, h, hc]
      · simp only [matchedFactor, List.filter_cons, decide_eq_true_eq, hc, if_pos,
          List.map_cons, List.prod_cons, List.map_map]
        apply List.map_congr_left
        intro a _
        simp [Function.comp, mul_assoc]
    · simp only [List.foldl_cons, if_neg hc, ih]
      rw [Prod.mk.injEq]
      refine ⟨?_, ?_⟩
      · rw [List.any_cons, decide_eq_false hc, Bool.false_or]
      · simp [matchedFactor, List.filter_cons, hc]

/-- C4 (amended): when the canonical target is not among the row's candidate
products, the source loop has no break: Product is rewritten to the canonical
name as soon as SOME alternative of the conversion map is found among the
candidates, and the time-step values are multiplied by the factor of EVERY
matching alternative (the product of all matching factors), not only the first. -/
theorem C4_all_matching_conversions_applied (rule : HarmonizationRule)
    (product : String) (vals : List ℚ)
    (h : rule.product ∉ splitProducts product) :
    harmonize_production_row rule product vals =
      (if rule.conversions.any (fun c => decide (c.1 ∈ splitProducts product)) then rule.product
        else product,
        vals.map (· * matchedFactor rule.conversions (splitProducts product))) := by
  unfold harmonize_production_row
  rw [if_neg h]
  exact harmonize_foldl_char rule.product (splitProducts product) rule.conversions product vals

/-- Concrete rule used to refute the first-match-only reading of C4. -/
def c4rule : HarmonizationRule := ⟨"Metal", [("Ore", 1/2), ("Conc", 3)]⟩

/-- C4 counterexample: with rule target "Metal" and conversions
Ore -> 1/2 then Conc -> 3, a row with Product "Ore, Conc" and year value 100 is
NOT left at ("Metal", 50) as the first-alternative-only claim states: both
alternatives match, so the code yields 100 * (1/2) * 3 = 150. -/
theorem C4_counterexample :
    harmonize_production_row c4rule "Ore, Conc" [100] ≠ ("Metal", [50]) ∧
      harmonize_production_row c4rule "Ore, Conc" [100] = ("Metal", [150]) := by
  have hsplit : splitProducts "Ore, Conc" = ["Ore", "Conc"] := by decide
  have h : harmonize_production_row c4rule "Ore, Conc" [100] = ("Metal", [150]) := by
    simp only [harmonize_production_row, c4rule, hsplit]
    rw [if_neg (by decide : ¬ (("Metal" : String) ∈ ["Ore", "Conc"]))]
    simp only [List.foldl_cons, List.foldl_nil]
    rw [if_pos (by decide : ((("Ore" : String), (1 : ℚ)/2)).1 ∈ ["Ore", "Conc"])]
    rw [if_pos (by decide : ((("Conc" : String), (3 : ℚ))).1 ∈ ["Ore", "Conc"])]
    rw [Prod.mk.injEq]
    refine ⟨rfl, ?_⟩
    norm_num
  constructor
  · rw [h]
    intro hc
    have h2 : ([150] : List ℚ) = [50] := congrArg Prod.snd hc
    have h3 : (150 : ℚ) = 50 := by
      have := List.head_eq_of_cons_eq h2
      exact this
    norm_num at h3
  · exact h

/-- C4 witness for the amended theorem at the concrete refuting input. -/
theorem C4_witness :
    c4rule.product ∉ splitProducts "Ore, Conc" ∧
      harmonize_production_row c4rule "Ore, Conc" [100] =
        (if c4rule.conversions.any (fun c => decide (c.1 ∈ splitProducts "Ore, Conc")) then
            c4rule.product
          else "Ore, Conc",
          [(100 : ℚ)].map (· * matchedFactor c4rule.conversions (splitProducts "Ore, Conc"))) :=
  ⟨by decide, C4_all_matching_conversions_applied c4rule "Ore, Conc" [100] (by decide)⟩

/-- C8 (amended): re-harmonizing a row whose Product already equals the
canonical target is a no-op provided the canonical target is one of its own
comma-split, stripped candidates (true of every comma-free label without
leading/trailing whitespace). -/
theorem C8_idempotent_on_harmonized_rows (rule : HarmonizationRule) (vals : List ℚ)
    (h : rule.product ∈ splitProducts rule.product) :
    harmonize_production_row rule rule.product vals = (rule.product, vals) := by
  unfold harmonize_production_row
  rw [if_pos h]

/-- Concrete rule used to refute the unconditional idempotence claim of C8:
the canonical target carries a leading space, so after splitting and stripping
it is not among its own candidates, while the conversion key "Metal" is. -/
def c8rule : HarmonizationRule := ⟨" Metal", [("Metal", 2)]⟩

/-- C8 counterexample: a row whose Product equals the rule's canonical target
" Metal" is re-scaled by a second harmonization pass: stripping turns the sole
candidate into "Metal", which misses the target string but matches the
conversion key, so the year value 10 is doubled to 20 instead of being left
unchanged. -/
theorem C8_counterexample :
    harmonize_production_row c8rule c8rule.product [10] = (" Metal", [20]) ∧
      ((" Metal", [(20 : ℚ)]) : String × List ℚ) ≠ (" Metal", [10]) := by
  have hsplit : splitProducts " Metal" = ["Metal"] := by decide
  constructor
  · show harmonize_production_row c8rule " Metal" [10] = (" Metal", [20])
    simp only [harmonize_production_row, c8rule, hsplit]
    rw [if_neg (by decide : ¬ ((" Metal" : String) ∈ ["Metal"]))]
    simp only [List.foldl_cons, List.foldl_nil]
    rw [if_pos (by decide : ((("Metal" : String), (2 : ℚ))).1 ∈ ["Metal"])]
    rw [Prod.mk.injEq]
    refine ⟨rfl, ?_⟩
    norm_num
  · intro hc
    have h2 : ([20] : List ℚ) = [10] := congrArg Prod.snd hc
    have h3 : (20 : ℚ) = 10 := List.head_eq_of_cons_eq h2
    norm_num at h3

/-- C8 witness: a well-formed rule (comma-free, stripped target) for which the
amended idempotence theorem applies. -/
theorem C8_witness :
    (⟨"Metal", [("Ore", 1/2)]⟩ : HarmonizationRule).product ∈ splitProducts "Metal" ∧
      harmonize_production_row ⟨"Metal", [("Ore", 1/2)]⟩ "Metal" [7] = ("Metal", [7]) :=
  ⟨by decide, C8_idempotent_on_harmonized_rows ⟨"Metal", [("Ore", 1/2)]⟩ [7] (by decide)⟩

/- ### create_scenarios_data (supply_scenarios.py lines 244-279)

One row of the updated dataset carries the project id, the Development Stage
and the production time-step values (None = NaN); one row of the concatenated
scenario dataset carries the scenario name, the project id and the zero-filled
time-step values in ascending year order (the first entry is the start-year
column that line 277 overwrites). -/

/-- A row of the updated project table entering create_scenarios_data. -/
structure ProjectRow where
  pid : Int
  stage : String
  prods : List (Option ℚ)
deriving DecidableEq, Repr

/-- A row of the concatenated long-format scenario dataset. -/
structure ScenarioRow where
  scenario : String
  pid : Int
  prods : List ℚ
deriving DecidableEq, Repr

/-- Overwrite the earliest time-step value with 0
(`data_all.at[index, str(self.timeframe[0])] = 0`). -/
def setFirstZero : List ℚ → List ℚ
  | [] => []
  | _ :: rest => 0 :: rest

/-- The earliest time-step value of a scenario row. -/
def firstProd (r : ScenarioRow) : ℚ := r.prods.headD 0

/-- The concatenated per-scenario selection of lines 256-270: drop projects
with production missing at every time step, then one row per (scenario,
project whose Development Stage is in the scenario's stage list), with missing
time-step values filled by 0. -/
def scenariosDataAll (scenarios : List (String × List String))
    (table : List ProjectRow) : List ScenarioRow :=
  scenarios.flatMap (fun sc =>
    ((table.filter (fun r => r.prods.any (fun v => v.isSome))).filter
        (fun r => decide (r.stage ∈ sc.2))).map (fun r =>
      { scenario := sc.1, pid := r.pid, prods := r.prods.map (fun v => v.getD 0) }))

/-- `projects_id_baseline` of line 273: the Project IDs of the rows tagged with
scenario "S&P-Baseline". -/
def baselineIds (rows : List ScenarioRow) : List Int :=
  (rows.filter (fun r => decide (r.scenario = "S&P-Baseline"))).map ScenarioRow.pid

/-- The loop of lines 275-277: every row whose Project ID is absent from the
baseline id set gets its earliest-year value overwritten with 0. -/
def forceBaselineStart (rows : List ScenarioRow) : List ScenarioRow :=
  rows.map (fun r =>
    if r.pid ∈ baselineIds rows then r else { r with prods := setFirstZero r.prods })

/-- create_scenarios_data (supply_scenarios.py lines 244-279). -/
def create_scenarios_data (scenarios : List (String × List String))
    (table : List ProjectRow) : List ScenarioRow :=
  forceBaselineStart (scenariosDataAll scenarios table)

theorem forceBaselineStart_nonzero_start (rows : List ScenarioRow) (r : ScenarioRow)
    (hr : r ∈ forceBaselineStart rows) (hnz : firstProd r ≠ 0) :
    ∃ rb ∈ forceBaselineStart rows, rb.scenario = "S&P-Baseline" ∧ rb.pid = r.pid := by
  rcases List.mem_map.mp hr with ⟨a, ha, hfa⟩
  by_cases hmem : a.pid ∈ baselineIds rows
  · rcases List.mem_map.mp hmem with ⟨b, hb, hbpid⟩
    have hbmem : b ∈ rows := List.mem_of_mem_filter hb
    have hbscen : b.scenario = "S&P-Baseline" := by
      have := List.of_mem_filter hb
      simpa using this
    refine ⟨if b.pid ∈ baselineIds rows then b
        else { b with prods := setFirstZero b.prods }, ?_, ?_, ?_⟩
    · exact List.mem_map_of_mem _ hbmem
    · by_cases hbin : b.pid ∈ baselineIds rows <;> simp [hbin, hbscen, hbpid, hmem]
    · have hrpid : r.pid = a.pid := by rw [← hfa, if_pos hmem]
      by_cases hbin : b.pid ∈ baselineIds rows <;> simp [hbin, hbpid, hrpid, hmem]
  · exfalso
    apply hnz
    rw [← hfa, if_neg hmem]
    show firstProd { a with prods := setFirstZero a.prods } = 0
    unfold firstProd setFirstZero
    match a.prods with
    | [] => rfl
    | _ :: _ => rfl

/-- C1 (amended): after scenario construction, every row with a non-zero
earliest-time-step value belongs to a project present in the "S&P-Baseline"
scenario (line 277 forces the start-year value of every other row to 0); the
converse inclusion does not hold, because a baseline project may itself have a
zero start-year value. -/
theorem C1_nonzero_start_subset_baseline (scenarios : List (String × List String))
    (table : List ProjectRow) (r : ScenarioRow)
    (hr : r ∈ create_scenarios_data scenarios table) (hnz : firstProd r ≠ 0) :
    ∃ rb ∈ create_scenarios_data scenarios table,
      rb.scenario = "S&P-Baseline" ∧ rb.pid = r.pid :=
  forceBaselineStart_nonzero_start (scenariosDataAll scenarios table) r hr hnz

/-- Scenario definition document of the C1 counterexample. -/
def c1scenarios : List (String × List String) :=
  [("S&P-Baseline", ["Operating"]), ("S&P-Apex", ["Operating", "Feasibility"])]

/-- Updated table of the C1 counterexample: project 1 is baseline-eligible but
its start-year production is missing (filled with 0); project 2 qualifies only
for the second scenario. -/
def c1table : List ProjectRow :=
  [⟨1, "Operating", [none, some 5]⟩, ⟨2, "Feasibility", [some 3, some 3]⟩]

/-- C1 counterexample: project 1 is present in the "S&P-Baseline" scenario, yet
no row of scenario "S&P-Apex" (nor of the baseline itself) has a non-zero
earliest-time-step value for it — its start-year value is the zero-filled NaN.
Hence the set of project ids with non-zero start-year value is a strict subset
of, not equal to, the baseline project-id set. -/
theorem C1_counterexample :
    (∃ rb ∈ create_scenarios_data c1scenarios c1table,
        rb.scenario = "S&P-Baseline" ∧ rb.pid = 1) ∧
      ¬ (∃ r ∈ create_scenarios_data c1scenarios c1table,
          r.scenario = "S&P-Apex" ∧ r.pid = 1 ∧ firstProd r ≠ 0) := by
  decide

/-- C1 witness: the amended subset theorem applied at a concrete table holding
one project that is both baseline-eligible and has a non-zero start value. -/
theorem C1_witness :
    (⟨"S&P-Apex", 2, [3, 3]⟩ : ScenarioRow) ∈ create_scenarios_data c1scenarios
        [⟨2, "Operating", [some 3, some 3]⟩] ∧
      firstProd ⟨"S&P-Apex", 2, [3, 3]⟩ ≠ 0 ∧
      ∃ rb ∈ create_scenarios_data c1scenarios [⟨2, "Operating", [some 3, some 3]⟩],
        rb.scenario = "S&P-Baseline" ∧ rb.pid = 2 :=
  ⟨by decide, by decide,
    C1_nonzero_start_subset_baseline c1scenarios [⟨2, "Operating", [some 3, some 3]⟩]
      ⟨"S&P-Apex", 2, [3, 3]⟩ (by decide) (by decide)⟩

/- ### export_to_premise_scenarios (supply_scenarios.py lines 312-376)

The per-row record construction (country to ISO code via the external
pycountry lookup, and the variable string
"Production|commodity|deposit type|project name") produces a flat list of
records with fields scenario, variables, region, unit and one value per
production year; the model below starts from that list.  `aggregate_premise`
is the groupby(['scenario', 'variables']).agg step of line 353 (sum of the
year columns, first region/unit, keys in sorted order as pandas sorts groupby
keys); `add_all_variables` is the completion step of lines 355-364: the
cross-product of the distinct scenarios and variables, region/unit taken from
the last de-duplicated (variables, region, unit) triple of each variable
(`drop_duplicates().set_index('variables').to_dict('index')` keeps the last
entry per variable), left-merged on all four key columns with the aggregated
records and zero-filled. -/

/-- A record of the premise scenario table; `varName` is the source's
"variables" column (that word is reserved in Lean). -/
structure PremiseRow where
  scenario : String
  varName : String
  region : String
  unit : String
  vals : List ℚ
deriving DecidableEq, Repr

/-- Column-wise sum of the year values of a group of records
(`agg` with `'sum'` on each year column); `n` is the number of year columns. -/
def sumVals (n : Nat) (ls : List (List ℚ)) : List ℚ :=
  ls.foldl (fun acc l => List.zipWith (· + ·) acc l) (List.replicate n 0)

/-- Lexicographic order on (scenario, variables) keys, the order pandas
groupby sorts its keys in. -/
def premiseKeyLe (a b : String × String) : Bool :=
  strLt a.1 b.1 || (decide (a.1 = b.1) && strLe a.2 b.2)

/-- `premise_scenario_data.groupby(['scenario', 'variables'],
as_index=False).agg(agg_dict)` of lines 351-353: one record per distinct
(scenario, variables) key, year columns summed, region and unit of the first
record of the group. -/
def aggregate_premise (n : Nat) (rows : List PremiseRow) : List PremiseRow :=
  (sortBy premiseKeyLe (uniqueFirst (rows.map (fun r => (r.scenario, r.varName))))).map
    (fun k =>
      { scenario := k.1, varName := k.2,
        region := ((rows.filter (fun r =>
            decide (r.scenario = k.1) && decide (r.varName = k.2))).map
          PremiseRow.region).headD "",
        unit := ((rows.filter (fun r =>
            decide (r.scenario = k.1) && decide (r.varName = k.2))).map
          PremiseRow.unit).headD "",
        vals := sumVals n ((rows.filter (fun r =>
            decide (r.scenario = k.1) && decide (r.varName = k.2))).map
          PremiseRow.vals) })

/-- Lines 355-364: cross-product of the distinct scenarios and distinct
variables of the aggregated table, each variable carrying the region/unit of
its last de-duplicated (variables, region, unit) triple, left-merged with the
aggregated records on (scenario, variables, region, unit) and zero-filled
where unmatched.  The aggregated table has one record per (scenario,
variables) key, so the first match of `find?` is the only one.

The (scenario, variables) cell of the completed cross-product table, given
the variable's attached (variables, region, unit) triple `t`: the left-merge
of lines 360-364 takes the aggregated record matching on all four key columns
when one exists, and fills the year columns with zeros otherwise. -/
def mergeRowFor (n : Nat) (agg : List PremiseRow) (s v : String)
    (t : String × String × String) : PremiseRow :=
  (agg.find? (fun a => decide (a.scenario = s) && decide (a.varName = v) &&
      decide (a.region = t.2.1) && decide (a.unit = t.2.2))).elim
    { scenario := s, varName := v, region := t.2.1, unit := t.2.2, vals := List.replicate n 0 }
    (fun a => { scenario := s, varName := v, region := t.2.1, unit := t.2.2, vals := a.vals })

def add_all_variables (n : Nat) (agg : List PremiseRow) : List PremiseRow :=
  (uniqueFirst (agg.map PremiseRow.scenario)).flatMap (fun s =>
    (uniqueFirst (agg.map PremiseRow.varName)).filterMap (fun v =>
      (((uniqueFirst (agg.map (fun r => (r.varName, r.region, r.unit)))).filter
          (fun t => decide (t.1 = v))).getLast?).map (mergeRowFor n agg s v)))

/-- The aggregation-and-completion tail of export_to_premise_scenarios. -/
def export_to_premise_scenarios (n : Nat) (rows : List PremiseRow) : List PremiseRow :=
  add_all_variables n (aggregate_premise n rows)

theorem mergeRowFor_scenario (n : Nat) (agg : List PremiseRow) (s v : String)
    (t : String × String × String) :
    (mergeRowFor n agg s v t).scenario = s ∧ (mergeRowFor n agg s v t).varName = v := by
  unfold mergeRowFor
  cases hfd : agg.find? (fun a => decide (a.scenario = s) && decide (a.varName = v) &&
      decide (a.region = t.2.1) && decide (a.unit = t.2.2)) with
  | none => exact ⟨rfl, rfl⟩
  | some a => exact ⟨rfl, rfl⟩

theorem add_all_variables_shape (n : Nat) (agg : List PremiseRow) (r : PremiseRow)
    (hr : r ∈ add_all_variables n agg) :
    r.scenario ∈ agg.map PremiseRow.scenario ∧ r.varName ∈ agg.map PremiseRow.varName := by
  unfold add_all_variables at hr
  rcases List.mem_flatMap.mp hr with ⟨s, hs, hrf⟩
  rcases List.mem_filterMap.mp hrf with ⟨v, hv, hfv⟩
  rcases Option.map_eq_some'.mp hfv with ⟨t, _, hmr⟩
  rw [← hmr]
  rcases mergeRowFor_scenario n agg s v t with ⟨h1, h2⟩
  rw [h1, h2]
  exact ⟨mem_uniqueFirst.mp hs, mem_uniqueFirst.mp hv⟩

theorem add_all_variables_complete (n : Nat) (agg : List PremiseRow) (s v : String)
    (hs : s ∈ agg.map PremiseRow.scenario) (hv : v ∈ agg.map PremiseRow.varName) :
    ∃ r ∈ add_all_variables n agg, r.scenario = s ∧ r.varName = v := by
  rcases List.mem_map.mp hv with ⟨a, ha, hav⟩
  have htm : (v, a.region, a.unit) ∈
      (uniqueFirst (agg.map (fun r => (r.varName, r.region, r.unit)))).filter
        (fun t => decide (t.1 = v)) := by
    rw [List.mem_filter]
    refine ⟨mem_uniqueFirst.mpr ?_, by simp⟩
    rcases hav with rfl
    exact List.mem_map_of_mem _ ha
  have hne : ((uniqueFirst (agg.map (fun r => (r.varName, r.region, r.unit)))).filter
      (fun t => decide (t.1 = v))) ≠ [] := List.ne_nil_of_mem htm
  rcases hgl : ((uniqueFirst (agg.map (fun r => (r.varName, r.region, r.unit)))).filter
      (fun t => decide (t.1 = v))).getLast? with _ | t
  · exact absurd (List.getLast?_eq_none_iff.mp hgl) hne
  · refine ⟨mergeRowFor n agg s v t, ?_, (mergeRowFor_scenario n agg s v t).1,
      (mergeRowFor_scenario n agg s v t).2⟩
    unfold add_all_variables
    rw [List.mem_flatMap]
    refine ⟨s, mem_uniqueFirst.mpr hs, ?_⟩
    rw [List.mem_filterMap]
    refine ⟨v, mem_uniqueFirst.mpr hv, ?_⟩
    rw [hgl]
    rfl

theorem add_all_variables_zero_fill (n : Nat) (agg : List PremiseRow) (r : PremiseRow)
    (hr : r ∈ add_all_variables n agg)
    (hno : ∀ a ∈ agg, ¬(a.scenario = r.scenario ∧ a.varName = r.varName)) :
    r.vals = List.replicate n 0 := by
  unfold add_all_variables at hr
  rcases List.mem_flatMap.mp hr with ⟨s, _, hrf⟩
  rcases List.mem_filterMap.mp hrf with ⟨v, _, hfv⟩
  rcases Option.map_eq_some'.mp hfv with ⟨t, _, hmr⟩
  have hsv : r.scenario = s ∧ r.varName = v := by
    rw [← hmr]; exact mergeRowFor_scenario n agg s v t
  have hfd : agg.find? (fun a => decide (a.scenario = s) && decide (a.varName = v) &&
      decide (a.region = t.2.1) && decide (a.unit = t.2.2)) = none := by
    rw [List.find?_eq_none]
    intro a hamem hp
    simp only [Bool.and_eq_true, decide_eq_true_eq] at hp
    exact hno a hamem (by rw [hsv.1, hsv.2]; exact ⟨hp.1.1.1, hp.1.1.2⟩)
  rw [← hmr]
  unfold mergeRowFor
  rw [hfd]
  rfl

/-- C3: in the exported premise table, for any two scenarios s1, s2 appearing
in the output and any variables string v appearing under either of them, rows
(s1, v) and (s2, v) both exist, and every row of a (scenario, variables) pair
with no aggregated record has all its production-year values zero-filled. -/
theorem C3_export_completeness (n : Nat) (rows : List PremiseRow) (s1 s2 v : String)
    (h1 : ∃ r ∈ export_to_premise_scenarios n rows, r.scenario = s1)
    (h2 : ∃ r ∈ export_to_premise_scenarios n rows, r.scenario = s2)
    (hv : ∃ r ∈ export_to_premise_scenarios n rows,
      (r.scenario = s1 ∨ r.scenario = s2) ∧ r.varName = v) :
    (∃ r ∈ export_to_premise_scenarios n rows, r.scenario = s1 ∧ r.varName = v) ∧
      (∃ r ∈ export_to_premise_scenarios n rows, r.scenario = s2 ∧ r.varName = v) ∧
      (∀ r ∈ export_to_premise_scenarios n rows,
        (∀ a ∈ aggregate_premise n rows, ¬(a.scenario = r.scenario ∧ a.varName = r.varName)) →
          r.vals = List.replicate n 0) := by
  rcases h1 with ⟨r1, hr1, hs1⟩
  rcases h2 with ⟨r2, hr2, hs2⟩
  rcases hv with ⟨rv, hrv, _, hvv⟩
  have hm1 := add_all_variables_shape n (aggregate_premise n rows) r1 hr1
  have hm2 := add_all_variables_shape n (aggregate_premise n rows) r2 hr2
  have hmv := add_all_variables_shape n (aggregate_premise n rows) rv hrv
  refine ⟨?_, ?_, ?_⟩
  · exact add_all_variables_complete n (aggregate_premise n rows) s1 v
      (hs1 ▸ hm1.1) (hvv ▸ hmv.2)
  · exact add_all_variables_complete n (aggregate_premise n rows) s2 v
      (hs2 ▸ hm2.1) (hvv ▸ hmv.2)
  · intro r hr hno
    exact add_all_variables_zero_fill n (aggregate_premise n rows) r hr hno

/-- Concrete input of the C3 witness: two scenarios, each producing only its
own variable. -/
def c3rows : List PremiseRow :=
  [⟨"S&P-Baseline", "Production|Copper|X|P1", "CL", "kt/year", [1]⟩,
    ⟨"S&P-Apex", "Production|Copper|X|P2", "PE", "kt/year", [2]⟩]

/-- C3 witness: the completeness theorem applied at the concrete record list,
for the variable produced only under the baseline scenario. -/
theorem C3_witness :
    (∃ r ∈ export_to_premise_scenarios 1 c3rows, r.scenario = "S&P-Baseline") ∧
      (∃ r ∈ export_to_premise_scenarios 1 c3rows, r.scenario = "S&P-Apex") ∧
      (∃ r ∈ export_to_premise_scenarios 1 c3rows, r.scenario = "S&P-Apex" ∧
        r.varName = "Production|Copper|X|P1") :=
  ⟨by decide, by decide,
    ((C3_export_completeness 1 c3rows "S&P-Baseline" "S&P-Apex" "Production|Copper|X|P1"
      (by decide) (by decide)
      (by decide)).2).1⟩

/- ### get_sp_dataset (data_collection.py lines 20-87)

The model starts after the two-row header resolution of lines 36-45: `df` is
the resolved table, an ordered list of (column name, cell values) columns; a
raw zero was already replaced by NaN (`Cell.na`) at load (line 29).  `corresp`
is `sp_data_corresp`, the canonical-attribute-to-raw-column mapping of the
schema document, and `years` is `years_list`, the decimal year labels of
timeframe start..stop inclusive (line 34).  pandas raises a KeyError when the
"Production Capacity" column of line 75 or the "Project ID" column of line 78
is missing; the model keeps those steps total, and the theorems below only
apply to inputs whose schema carries both attributes, where the behaviours
coincide.  `df.index.astype(int)` of line 80 only retypes the index and is not
modelled. -/

/-- One dataframe cell: a float, a string, or NaN. -/
inductive Cell where
  | num (q : ℚ)
  | str (s : String)
  | na
deriving DecidableEq, Repr

/-- A dataframe: ordered columns, each a name with its cell values in row
order. -/
abbrev DataFrame := List (String × List Cell)

/-- `name in df.columns`. -/
def dfHasCol (df : DataFrame) (name : String) : Bool :=
  df.any (fun c => decide (c.1 = name))

/-- `df.drop(columns=[name])`. -/
def dfDrop (df : DataFrame) (name : String) : DataFrame :=
  df.filter (fun c => decide (¬ c.1 = name))

/-- `df.rename(columns={old: new})` (a no-op when `old` is absent). -/
def dfRename (df : DataFrame) (old new : String) : DataFrame :=
  df.map (fun c => if c.1 = old then (new, c.2) else c)

/-- `x / 1000` on one cell; NaN stays NaN and `/=` never sees a string cell on
the numeric columns it is applied to. -/
def divCell : Cell → Cell
  | .num q => .num (q / 1000)
  | c => c

/-- Rewrite the values of the column called `name`. -/
def dfMapCol (df : DataFrame) (name : String) (f : List Cell → List Cell) : DataFrame :=
  df.map (fun c => if c.1 = name then (c.1, f c.2) else c)

/-- `df[name] /= 1000`. -/
def dfDivide1000 (df : DataFrame) (name : String) : DataFrame :=
  dfMapCol df name (List.map divCell)

/-- `len(df)`: the length of the first column (all columns share it). -/
def numRows (df : DataFrame) : Nat :=
  match df with
  | [] => 0
  | c :: _ => c.2.length

/-- `df[name] = cell` with a scalar: overwrite the column in place when it
exists, append it otherwise. -/
def dfSetConst (df : DataFrame) (name : String) (cell : Cell) : DataFrame :=
  if dfHasCol df name then dfMapCol df name (fun _ => List.replicate (numRows df) cell)
  else df ++ [(name, List.replicate (numRows df) cell)]

/-- The body of the per-year loop of lines 57-66: rename the raw
"<raw>_<year>Y" column to "Production <year>", create it filled with NaN when
absent, and divide it by 1000. -/
def processYear (raw y : String) (df : DataFrame) : DataFrame :=
  dfDivide1000
    (if dfHasCol (dfRename df (raw ++ "_" ++ y ++ "Y") ("Production " ++ y))
        ("Production " ++ y) then
      dfRename df (raw ++ "_" ++ y ++ "Y") ("Production " ++ y)
    else
      dfRename df (raw ++ "_" ++ y ++ "Y") ("Production " ++ y) ++
        [("Production " ++ y,
          List.replicate (numRows (dfRename df (raw ++ "_" ++ y ++ "Y") ("Production " ++ y)))
            Cell.na)])
    ("Production " ++ y)

/-- The validation-and-rename loop of lines 53-72, in `sp_data_corresp`
document order: the "Production" attribute runs the per-year loop; every other
attribute must have its raw column present (else the ValueError of line 70,
whose f-string `"the {col}attribute"` has no space before "attribute") and is
renamed to its canonical name. -/
def processAttrs (years : List String) :
    List (String × String) → DataFrame → Except String DataFrame
  | [], df => .ok df
  | (attr, raw) :: rest, df =>
    if attr = "Production" then
      processAttrs years rest (years.foldl (fun d y => processYear raw y d) df)
    else if dfHasCol df raw then
      processAttrs years rest (dfRename df raw attr)
    else
      .error ("S&P dataset does not contain the " ++ attr ++ "attribute")

/-- Lines 47-49: `if sp_data_corresp["Production"] in df.columns:
df.drop(columns=[sp_data_corresp["Production"]])` — the condition consults the
raw aggregate Production column itself, not Production Capacity. -/
def dropRawProduction (corresp : List (String × String)) (df : DataFrame) : DataFrame :=
  if dfHasCol df ((corresp.lookup "Production").getD "") then
    dfDrop df ((corresp.lookup "Production").getD "")
  else df

/-- Contiguous-prefix test on character lists. -/
def isPrefChars : List Char → List Char → Bool
  | [], _ => true
  | _ :: _, [] => false
  | a :: as, b :: bs => decide (a = b) && isPrefChars as bs

/-- Python's `pat in s` substring containment, character by character. -/
def isSubChars (pat : List Char) : List Char → Bool
  | [] => pat.isEmpty
  | b :: rest => isPrefChars pat (b :: rest) || isSubChars pat rest

/-- `any(year in i for year in years_list)` of line 83: the column name
contains some year label as a substring. -/
def isProductionCol (years : List String) (name : String) : Bool :=
  years.any (fun y => isSubChars y.data name.data)

/-- Lines 83-85: non-production columns first in original order, production
columns after them sorted lexicographically by name. -/
def reorderCols (years : List String) (df : DataFrame) : DataFrame :=
  df.filter (fun c => !(isProductionCol years c.1)) ++
    sortBy (fun a b => strLe a.1 b.1) (df.filter (fun c => isProductionCol years c.1))

/-- get_sp_dataset from the point where the two header rows have been resolved
and dropped: drop the raw aggregate Production column when present, run the
validation/rename loop, divide "Production Capacity" by 1000, set
"Production Unit" to "kt/year" for all rows, move "Project ID" to the index
(drop its column), and reorder the columns. -/
def get_sp_dataset (corresp : List (String × String)) (years : List String)
    (df : DataFrame) : Except String DataFrame :=
  match processAttrs years corresp (dropRawProduction corresp df) with
  | .error e => .error e
  | .ok df2 =>
    .ok (reorderCols years (dfDrop (dfSetConst (dfDivide1000 df2 "Production Capacity")
      "Production Unit" (Cell.str "kt/year")) "Project ID"))

theorem dfHasCol_dfDrop_self (df : DataFrame) (name : String) :
    dfHasCol (dfDrop df name) name = false := by
  induction df with
  | nil => rfl
  | cons c rest ih =>
    simp only [dfDrop, dfHasCol] at ih ⊢
    rw [List.filter_cons]
    by_cases h : c.1 = name
    · rw [if_neg (by simp [h])]
      exact ih
    · rw [if_pos (by simp [h])]
      rw [List.any_cons]
      have hd : decide (c.1 = name) = false := by simp [h]
      rw [hd, Bool.false_or]
      exact ih

theorem dfLookup_dfDrop_ne (df : DataFrame) (name other : String) (h : name ≠ other) :
    List.lookup name (dfDrop df other) = List.lookup name df := by
  induction df with
  | nil => rfl
  | cons c rest ih =>
    simp only [dfDrop] at ih ⊢
    rw [List.filter_cons]
    by_cases hc : c.1 = other
    · rw [if_neg (by simp [hc])]
      rw [ih, List.lookup_cons]
      have hb : (name == c.1) = false := by
        rw [beq_eq_false_iff_ne, hc]
        exact h
      simp only [hb]
    · rw [if_pos (by simp [hc])]
      rw [List.lookup_cons, List.lookup_cons]
      cases hb : name == c.1
      · simp only [hb]
        exact ih
      · simp only [hb]

/-- C6 (amended): the drop step of lines 47-49 removes the raw aggregate
Production column exactly when that column itself exists in the resolved
columns — presence of "Production Capacity" is never consulted — and leaves
every other column untouched. -/
theorem C6_drop_production_unconditional (corresp : List (String × String)) (df : DataFrame) :
    dfHasCol (dropRawProduction corresp df) ((corresp.lookup "Production").getD "") = false ∧
      ∀ name, name ≠ (corresp.lookup "Production").getD "" →
        List.lookup name (dropRawProduction corresp df) = List.lookup name df := by
  constructor
  · unfold dropRawProduction
    by_cases h : dfHasCol df ((corresp.lookup "Production").getD "")
    · rw [if_pos h]
      exact dfHasCol_dfDrop_self df _
    · rw [if_neg h]
      simpa using h
  · intro name hname
    unfold dropRawProduction
    by_cases h : dfHasCol df ((corresp.lookup "Production").getD "")
    · rw [if_pos h]
      exact dfLookup_dfDrop_ne df name _ hname
    · rw [if_neg h]

/-- Schema mapping of the C6 counterexample. -/
def c6corresp : List (String × String) := [("Production", "Prod"), ("Production Capacity", "Cap")]

/-- Resolved columns of the C6 counterexample: the raw aggregate Production
column "Prod" is present, the raw Production Capacity column "Cap" is not. -/
def c6df : DataFrame := [("Prod", [Cell.na]), ("PID", [Cell.na])]

/-- C6 counterexample: with the raw "Production Capacity" column absent, the
claim says the aggregate "Prod" column is retained; the code drops it anyway,
because the source condition tests the "Prod" column itself. -/
theorem C6_counterexample :
    dfHasCol c6df "Prod" = true ∧
      dfHasCol c6df "Cap" = false ∧
      dfHasCol (dropRawProduction c6corresp c6df) "Prod" = false ∧
      ¬ ((dfHasCol c6df "Prod" = true ∧ dfHasCol (dropRawProduction c6corresp c6df) "Prod" = false)
        ↔ dfHasCol c6df "Cap" = true) := by
  decide

/-- C6 witness: the amended theorem at the counterexample's input, checking the
"PID" column is untouched. -/
theorem C6_witness :
    dfHasCol (dropRawProduction c6corresp c6df) ((c6corresp.lookup "Production").getD "") = false ∧
      List.lookup "PID" (dropRawProduction c6corresp c6df) = List.lookup "PID" c6df :=
  ⟨(C6_drop_production_unconditional c6corresp c6df).1,
    (C6_drop_production_unconditional c6corresp c6df).2 "PID" (by decide)⟩

theorem dfHasCol_eq_isSome (df : DataFrame) (name : String) :
    dfHasCol df name = (List.lookup name df).isSome := by
  induction df with
  | nil => rfl
  | cons c rest ih =>
    rw [dfHasCol, List.any_cons, List.lookup_cons]
    by_cases h : c.1 = name
    · have hb : (name == c.1) = true := by rw [beq_iff_eq]; exact h.symm
      simp [h, hb]
    · have hb : (name == c.1) = false := by
        rw [beq_eq_false_iff_ne]; exact fun e => h e.symm
      have hd : decide (c.1 = name) = false := by simp [h]
      rw [hd, Bool.false_or]
      simp only [hb]
      rw [← dfHasCol]
      exact ih

theorem dfLookup_dfRename_ne (df : DataFrame) (old new name : String)
    (h1 : name ≠ old) (h2 : name ≠ new) :
    List.lookup name (dfRename df old new) = List.lookup name df := by
  induction df with
  | nil => rfl
  | cons c rest ih =>
    simp only [dfRename, List.map_cons] at ih ⊢
    by_cases hc : c.1 = old
    · rw [if_pos hc]
      rw [List.lookup_cons, List.lookup_cons]
      have hbn : (name == new) = false := by rw [beq_eq_false_iff_ne]; exact h2
      have hbc : (name == c.1) = false := by rw [beq_eq_false_iff_ne, hc]; exact h1
      simp only [hbn, hbc]
      exact ih
    · rw [if_neg hc]
      rw [List.lookup_cons, List.lookup_cons]
      cases hb : name == c.1
      · simp only [hb]
        exact ih
      · simp only [hb]

theorem dfLookup_dfRename_moved (df : DataFrame) (old new : String)
    (h : List.lookup new df = none) :
    List.lookup new (dfRename df old new) = List.lookup old df := by
  induction df with
  | nil => rfl
  | cons c rest ih =>
    rw [List.lookup_cons] at h
    cases hb : new == c.1 with
    | true =>
      simp only [hb] at h
      exact absurd h (by simp)
    | false =>
      simp only [hb] at h
      simp only [dfRename, List.map_cons]
      by_cases hc : c.1 = old
      · rw [if_pos hc]
        rw [List.lookup_cons, List.lookup_cons]
        have h1 : (new == new) = true := by simp
        have h2 : (old == c.1) = true := by rw [beq_iff_eq, hc]
        simp only [h1, h2]
      · rw [if_neg hc]
        rw [List.lookup_cons, List.lookup_cons]
        have h2 : (old == c.1) = false := by
          rw [beq_eq_false_iff_ne]; exact fun e => hc e.symm
        simp only [hb, h2]
        simp only [dfRename] at ih
        exact ih h

theorem dfLookup_dfMapCol_self (df : DataFrame) (name : String) (f : List Cell → List Cell) :
    List.lookup name (dfMapCol df name f) = (List.lookup name df).map f := by
  induction df with
  | nil => rfl
  | cons c rest ih =>
    simp only [dfMapCol, List.map_cons] at ih ⊢
    by_cases hc : c.1 = name
    · rw [if_pos hc]
      rw [List.lookup_cons, List.lookup_cons]
      have hb : (name == c.1) = true := by rw [beq_iff_eq]; exact hc.symm
      simp only [hb, Option.map_some']
    · rw [if_neg hc]
      rw [List.lookup_cons, List.lookup_cons]
      cases hb : name == c.1
      · simp only [hb]
        exact ih
      · have he : name = c.1 := by rwa [beq_iff_eq] at hb
        exact absurd he.symm hc

theorem dfLookup_dfMapCol_ne (df : DataFrame) (name other : String) (f : List Cell → List Cell)
    (h : name ≠ other) :
    List.lookup name (dfMapCol df other f) = List.lookup name df := by
  induction df with
  | nil => rfl
  | cons c rest ih =>
    simp only [dfMapCol, List.map_cons] at ih ⊢
    by_cases hc : c.1 = other
    · rw [if_pos hc]
      rw [List.lookup_cons, List.lookup_cons]
      have hb : (name == c.1) = false := by rw [beq_eq_false_iff_ne, hc]; exact h
      simp only [hb]
      exact ih
    · rw [if_neg hc]
      rw [List.lookup_cons, List.lookup_cons]
      cases hb : name == c.1
      · simp only [hb]
        exact ih
      · simp only [hb]

theorem dfLookup_append (df1 df2 : DataFrame) (name : String) :
    List.lookup name (df1 ++ df2) =
      match List.lookup name df1 with
      | some v => some v
      | none => List.lookup name df2 := by
  induction df1 with
  | nil => simp
  | cons c rest ih =>
    rw [List.cons_append, List.lookup_cons, List.lookup_cons]
    cases hb : name == c.1
    · simp only [hb]
      exact ih
    · simp only [hb]

theorem dfLookup_append_single_ne (df : DataFrame) (k : String) (v : List Cell) (name : String)
    (h : name ≠ k) :
    List.lookup name (df ++ [(k, v)]) = List.lookup name df := by
  rw [dfLookup_append]
  cases hl : List.lookup name df
  · have hb : (name == k) = false := beq_eq_false_iff_ne.mpr h
    simp only [List.lookup_cons, hb]
    rfl
  · rfl

theorem dfLookup_append_single_self (df : DataFrame) (v : List Cell) (name : String)
    (h : List.lookup name df = none) :
    List.lookup name (df ++ [(name, v)]) = some v := by
  rw [dfLookup_append, h]
  simp [List.lookup_cons]

theorem processYear_preserves (raw y : String) (df : DataFrame) (name : String)
    (h1 : raw ++ "_" ++ y ++ "Y" ≠ name) (h2 : "Production " ++ y ≠ name) :
    List.lookup name (processYear raw y df) = List.lookup name df := by
  unfold processYear dfDivide1000
  rw [dfLookup_dfMapCol_ne _ _ _ _ h2.symm]
  by_cases hc : dfHasCol (dfRename df (raw ++ "_" ++ y ++ "Y") ("Production " ++ y))
      ("Production " ++ y)
  · rw [if_pos hc]
    exact dfLookup_dfRename_ne df _ _ name h1.symm h2.symm
  · rw [if_neg hc]
    rw [dfLookup_append_single_ne _ _ _ _ h2.symm]
    exact dfLookup_dfRename_ne df _ _ name h1.symm h2.symm

theorem processYear_establishes (raw y : String) (df : DataFrame) (vals : List Cell)
    (hl : List.lookup (raw ++ "_" ++ y ++ "Y") df = some vals)
    (hn : List.lookup ("Production " ++ y) df = none) :
    List.lookup ("Production " ++ y) (processYear raw y df) = some (vals.map divCell) := by
  unfold processYear dfDivide1000
  have hmv : List.lookup ("Production " ++ y)
      (dfRename df (raw ++ "_" ++ y ++ "Y") ("Production " ++ y)) = some vals := by
    rw [dfLookup_dfRename_moved df _ _ hn, hl]
  have hcol : dfHasCol (dfRename df (raw ++ "_" ++ y ++ "Y") ("Production " ++ y))
      ("Production " ++ y) = true := by
    rw [dfHasCol_eq_isSome, hmv]
    rfl
  rw [if_pos hcol]
  rw [dfLookup_dfMapCol_self, hmv]
  rfl

theorem foldYears_preserves (raw : String) (ys : List String) (df : DataFrame) (name : String)
    (h : ∀ y ∈ ys, raw ++ "_" ++ y ++ "Y" ≠ name ∧ "Production " ++ y ≠ name) :
    List.lookup name (ys.foldl (fun d y => processYear raw y d) df) = List.lookup name df := by
  induction ys generalizing df with
  | nil => rfl
  | cons y t ih =>
    rw [List.foldl_cons]
    rw [ih _ (fun y' hy' => h y' (List.mem_cons_of_mem _ hy'))]
    exact processYear_preserves raw y df name (h y (List.mem_cons_self _ _)).1
      (h y (List.mem_cons_self _ _)).2

theorem foldYears_establishes (raw : String) (ypre ypost : List String) (y : String)
    (df : DataFrame) (vals : List Cell)
    (hl : List.lookup (raw ++ "_" ++ y ++ "Y") df = some vals)
    (hn : List.lookup ("Production " ++ y) df = none)
    (hpre : ∀ y' ∈ ypre, (raw ++ "_" ++ y' ++ "Y" ≠ raw ++ "_" ++ y ++ "Y" ∧
        "Production " ++ y' ≠ raw ++ "_" ++ y ++ "Y") ∧
      (raw ++ "_" ++ y' ++ "Y" ≠ "Production " ++ y ∧
        "Production " ++ y' ≠ "Production " ++ y))
    (hpost : ∀ y' ∈ ypost, raw ++ "_" ++ y' ++ "Y" ≠ "Production " ++ y ∧
        "Production " ++ y' ≠ "Production " ++ y) :
    List.lookup ("Production " ++ y)
      ((ypre ++ y :: ypost).foldl (fun d y' => processYear raw y' d) df) =
      some (vals.map divCell) := by
  rw [List.foldl_append, List.foldl_cons]
  have hdf1 : List.lookup (raw ++ "_" ++ y ++ "Y")
      (ypre.foldl (fun d y' => processYear raw y' d) df) = some vals := by
    rw [foldYears_preserves raw ypre df _ (fun y' hy' => (hpre y' hy').1)]
    exact hl
  have hdf2 : List.lookup ("Production " ++ y)
      (ypre.foldl (fun d y' => processYear raw y' d) df) = none := by
    rw [foldYears_preserves raw ypre df _ (fun y' hy' => (hpre y' hy').2)]
    exact hn
  rw [foldYears_preserves raw ypost _ _ hpost]
  exact processYear_establishes raw y _ vals hdf1 hdf2

/-- A schema entry leaves the column called `name` untouched: a non-production
entry must name neither its canonical nor its raw column `name`, a production
entry must generate no per-year raw or canonical column called `name`. -/
def entryAvoids (years : List String) (e : String × String) (name : String) : Bool :=
  if e.1 = "Production" then
    years.all (fun y =>
      decide (¬ e.2 ++ "_" ++ y ++ "Y" = name) && decide (¬ "Production " ++ y = name))
  else
    decide (¬ e.1 = name) && decide (¬ e.2 = name)

theorem processAttrs_preserves (years : List String) (entries : List (String × String))
    (df df' : DataFrame) (name : String)
    (hok : processAttrs years entries df = .ok df')
    (h : ∀ e ∈ entries, entryAvoids years e name = true) :
    List.lookup name df' = List.lookup name df := by
  induction entries generalizing df with
  | nil =>
    simp only [processAttrs] at hok
    injection hok with h'
    rw [← h']
  | cons e rest ih =>
    obtain ⟨attr, raw⟩ := e
    have he := h (attr, raw) (List.mem_cons_self _ _)
    by_cases hattr : attr = "Production"
    · simp only [processAttrs, if_pos hattr] at hok
      rw [ih _ hok (fun e' he' => h e' (List.mem_cons_of_mem _ he'))]
      apply foldYears_preserves
      intro y hy
      unfold entryAvoids at he
      rw [if_pos hattr] at he
      have hy2 := (List.all_eq_true.mp he) y hy
      simp only [Bool.and_eq_true, decide_eq_true_eq] at hy2
      exact hy2
    · simp only [processAttrs, if_neg hattr] at hok
      by_cases hcol : dfHasCol df raw
      · rw [if_pos hcol] at hok
        rw [ih _ hok (fun e' he' => h e' (List.mem_cons_of_mem _ he'))]
        unfold entryAvoids at he
        rw [if_neg hattr] at he
        simp only [Bool.and_eq_true, decide_eq_true_eq] at he
        exact dfLookup_dfRename_ne df raw attr name (fun e => he.2 e.symm)
          (fun e => he.1 e.symm)
      · rw [if_neg hcol] at hok
        exact absurd hok (by simp)

theorem processAttrs_append (years : List String) (l1 l2 : List (String × String))
    (df : DataFrame) :
    processAttrs years (l1 ++ l2) df =
      match processAttrs years l1 df with
      | .ok d => processAttrs years l2 d
      | .error e => .error e := by
  induction l1 generalizing df with
  | nil => simp [processAttrs]
  | cons e rest ih =>
    obtain ⟨attr, raw⟩ := e
    by_cases hattr : attr = "Production"
    · simp only [List.cons_append, processAttrs, if_pos hattr]
      exact ih _
    · simp only [List.cons_append, processAttrs, if_neg hattr]
      by_cases hcol : dfHasCol df raw
      · simp only [if_pos hcol]
        exact ih _
      · simp only [if_neg hcol]

/-- C5 (amended): for a mandatory non-production attribute processed after a
successful prefix `pre` of the schema entries, the import fails exactly when
the attribute's raw column is absent at that point, and the raised message is
"S&P dataset does not contain the {attribute}attribute" — the source f-string
of data_collection.py line 70 has no space before "attribute"; when the column
is present the check passes and the loop continues on the renamed table. -/
theorem C5_missing_column_yields_error (corresp pre post : List (String × String))
    (attr raw : String) (years : List String) (df dfmid : DataFrame)
    (hsplit : corresp = pre ++ (attr, raw) :: post)
    (hattr : attr ≠ "Production")
    (hpre : processAttrs years pre (dropRawProduction corresp df) = .ok dfmid) :
    (dfHasCol dfmid raw = false →
      get_sp_dataset corresp years df =
        .error ("S&P dataset does not contain the " ++ attr ++ "attribute")) ∧
      (dfHasCol dfmid raw = true →
        processAttrs years corresp (dropRawProduction corresp df) =
          processAttrs years post (dfRename dfmid raw attr)) := by
  subst hsplit
  constructor
  · intro hmiss
    unfold get_sp_dataset
    rw [processAttrs_append, hpre]
    simp only [processAttrs, if_neg hattr]
    rw [if_neg (by rw [hmiss]; simp)]
  · intro hhas
    rw [processAttrs_append, hpre]
    simp only [processAttrs, if_neg hattr]
    rw [if_pos hhas]

/-- Schema mapping of the C5 counterexample: the raw column of the mandatory
"Country" attribute is called "CNTRY". -/
def c5corresp : List (String × String) := [("Production", "Prod"), ("Country", "CNTRY")]

/-- Resolved columns of the C5 counterexample: no "CNTRY" column. -/
def c5df : DataFrame := [("PID", [Cell.na])]

/-- C5 counterexample: the import does fail on the missing "Country" column,
but the message is "S&P dataset does not contain the Countryattribute" — the
source f-string lacks the space the claim requires before "attribute". -/
theorem C5_counterexample :
    get_sp_dataset c5corresp ["2025"] c5df =
      .error "S&P dataset does not contain the Countryattribute" ∧
      "S&P dataset does not contain the Countryattribute" ≠
        "S&P dataset does not contain the Country attribute" :=
  ⟨rfl, by decide⟩

/-- C5 witness: the amended theorem at the counterexample's schema and table,
where the "Country" attribute follows the production entry. -/
theorem C5_witness :
    (dfHasCol [("PID", [Cell.na]), ("Production 2025", [Cell.na])] "CNTRY" = false →
      get_sp_dataset c5corresp ["2025"] c5df =
        .error ("S&P dataset does not contain the " ++ "Country" ++ "attribute")) ∧
      (dfHasCol [("PID", [Cell.na]), ("Production 2025", [Cell.na])] "CNTRY" = true →
        processAttrs ["2025"] c5corresp (dropRawProduction c5corresp c5df) =
          processAttrs ["2025"] []
            (dfRename [("PID", [Cell.na]), ("Production 2025", [Cell.na])] "CNTRY" "Country")) :=
  C5_missing_column_yields_error c5corresp [("Production", "Prod")] [] "Country" "CNTRY"
    ["2025"] c5df [("PID", [Cell.na]), ("Production 2025", [Cell.na])]
    (by decide) (by decide) rfl

theorem lookup_append_not_key (l1 l2 : List (String × String)) (k : String)
    (h : ∀ e ∈ l1, e.1 ≠ k) : List.lookup k (l1 ++ l2) = List.lookup k l2 := by
  induction l1 with
  | nil => rfl
  | cons e rest ih =>
    rw [List.cons_append, List.lookup_cons]
    have hb : (k == e.1) = false :=
      beq_eq_false_iff_ne.mpr (fun he => (h e (List.mem_cons_self _ _)) he.symm)
    simp only [hb]
    exact ih (fun e' he' => h e' (List.mem_cons_of_mem _ he'))

theorem dfLookup_dropRawProduction_ne (corresp : List (String × String)) (df : DataFrame)
    (name : String) (h : name ≠ (corresp.lookup "Production").getD "") :
    List.lookup name (dropRawProduction corresp df) = List.lookup name df := by
  unfold dropRawProduction
  by_cases hc : dfHasCol df ((corresp.lookup "Production").getD "")
  · rw [if_pos hc]
    exact dfLookup_dfDrop_ne df name _ h
  · rw [if_neg hc]

theorem mem_of_dfLookup_eq_some {df : DataFrame} {n : String} {v : List Cell}
    (h : List.lookup n df = some v) : (n, v) ∈ df := by
  induction df with
  | nil => simp [List.lookup] at h
  | cons c rest ih =>
    rw [List.lookup_cons] at h
    cases hb : n == c.1
    · simp only [hb] at h
      exact List.mem_cons_of_mem _ (ih h)
    · simp only [hb] at h
      injection h with hv
      have hn : n = c.1 := by rwa [beq_iff_eq] at hb
      have hc : (n, v) = c := by
        rw [hn, ← hv]
      rw [hc]
      exact List.mem_cons_self _ _

theorem dfLookup_eq_some_of_mem_nodup {df : DataFrame} {n : String} {v : List Cell}
    (hnd : (df.map Prod.fst).Nodup) (hm : (n, v) ∈ df) :
    List.lookup n df = some v := by
  induction df with
  | nil => simp at hm
  | cons c rest ih =>
    rw [List.map_cons, List.nodup_cons] at hnd
    rw [List.lookup_cons]
    rcases List.mem_cons.mp hm with h1 | h1
    · have hn : n = c.1 := by rw [← h1]
      have hv : v = c.2 := by rw [← h1]
      have hb : (n == c.1) = true := by rw [beq_iff_eq]; exact hn
      simp only [hb, hv]
    · have hn : n ≠ c.1 := by
        intro he
        apply hnd.1
        rw [← he]
        exact List.mem_map_of_mem Prod.fst h1
      have hb : (n == c.1) = false := beq_eq_false_iff_ne.mpr hn
      simp only [hb]
      exact ih hnd.2 h1

theorem dfLookup_of_perm (df1 df2 : DataFrame) (n : String)
    (hperm : List.Perm df1 df2) (hnd : (df1.map Prod.fst).Nodup) :
    List.lookup n df1 = List.lookup n df2 := by
  have hnd2 : (df2.map Prod.fst).Nodup := ((hperm.map Prod.fst).nodup_iff).mp hnd
  cases h2 : List.lookup n df2 with
  | some v =>
    have hm : (n, v) ∈ df1 := hperm.symm.subset (mem_of_dfLookup_eq_some h2)
    exact dfLookup_eq_some_of_mem_nodup hnd hm
  | none =>
    cases h1 : List.lookup n df1 with
    | none => rfl
    | some v =>
      have hm : (n, v) ∈ df2 := hperm.subset (mem_of_dfLookup_eq_some h1)
      rw [dfLookup_eq_some_of_mem_nodup hnd2 hm] at h2
      exact absurd h2 (by simp)

theorem reorderCols_perm (years : List String) (df : DataFrame) :
    List.Perm (reorderCols years df) df := by
  unfold reorderCols
  refine (List.Perm.append_left _ (sortBy_perm _ _)).trans ?_
  refine (List.perm_append_comm).trans ?_
  exact List.filter_append_perm _ df

theorem dfLookup_dfSetConst_ne (df : DataFrame) (name other : String) (cell : Cell)
    (h : name ≠ other) :
    List.lookup name (dfSetConst df other cell) = List.lookup name df := by
  unfold dfSetConst
  by_cases hc : dfHasCol df other
  · rw [if_pos hc]
    exact dfLookup_dfMapCol_ne df name other _ h
  · rw [if_neg hc]
    exact dfLookup_append_single_ne df other _ name h

theorem dfLookup_dfSetConst_self (df : DataFrame) (name : String) (cell : Cell) :
    List.lookup name (dfSetConst df name cell) =
      some (List.replicate (numRows df) cell) := by
  unfold dfSetConst
  by_cases hc : dfHasCol df name
  · rw [if_pos hc, dfLookup_dfMapCol_self]
    rw [dfHasCol_eq_isSome] at hc
    cases hl : List.lookup name df with
    | none => rw [hl] at hc; simp at hc
    | some v => rfl
  · rw [if_neg hc]
    apply dfLookup_append_single_self
    rw [dfHasCol_eq_isSome] at hc
    cases hl : List.lookup name df with
    | none => rfl
    | some v => rw [hl] at hc; simp at hc

/-- C7: for every resolved raw export run through get_sp_dataset whose
production cell for a project (row i) and a timeframe year y holds a non-zero
value V in source units, the imported table's "Production y" cell at that row
equals V/1000; "Production Capacity" is likewise the raw capacity column
divided by 1000; and the "Production Unit" column holds the literal "kt/year"
in every row.  The schema-shape and column-name-distinctness side conditions
are the well-formedness of a real export: a schema holding one "Production"
and one "Production Capacity" entry, fresh canonical names, and distinct
result columns. -/
theorem C7_production_conversion
    (corresp pre post cpre cpost : List (String × String)) (years ypre ypost : List String)
    (df result : DataFrame) (rawProd rawCap y : String)
    (prodVals capVals : List Cell) (i : Nat) (V : ℚ)
    (hok : get_sp_dataset corresp years df = .ok result)
    (hsplit : corresp = pre ++ ("Production", rawProd) :: post)
    (hprenp : ∀ e ∈ pre, e.1 ≠ "Production")
    (hyears : years = ypre ++ y :: ypost)
    (hdfcol : List.lookup (rawProd ++ "_" ++ y ++ "Y") df = some prodVals)
    (hcell : prodVals[i]? = some (Cell.num V))
    (_hVnz : V ≠ 0)
    (hprodnone : List.lookup ("Production " ++ y) df = none)
    (hrne1 : rawProd ≠ rawProd ++ "_" ++ y ++ "Y")
    (hrne2 : rawProd ≠ "Production " ++ y)
    (hpre1 : ∀ e ∈ pre, entryAvoids years e (rawProd ++ "_" ++ y ++ "Y") = true)
    (hpre2 : ∀ e ∈ pre, entryAvoids years e ("Production " ++ y) = true)
    (hypre : ∀ y' ∈ ypre, (rawProd ++ "_" ++ y' ++ "Y" ≠ rawProd ++ "_" ++ y ++ "Y" ∧
        "Production " ++ y' ≠ rawProd ++ "_" ++ y ++ "Y") ∧
      (rawProd ++ "_" ++ y' ++ "Y" ≠ "Production " ++ y ∧
        "Production " ++ y' ≠ "Production " ++ y))
    (hypost : ∀ y' ∈ ypost, rawProd ++ "_" ++ y' ++ "Y" ≠ "Production " ++ y ∧
        "Production " ++ y' ≠ "Production " ++ y)
    (hpost1 : ∀ e ∈ post, entryAvoids years e ("Production " ++ y) = true)
    (hcsplit : corresp = cpre ++ ("Production Capacity", rawCap) :: cpost)
    (hcap0 : List.lookup rawCap df = some capVals)
    (hcapnone : List.lookup "Production Capacity" df = none)
    (hrawcap : rawCap ≠ rawProd)
    (hrawpc : ("Production Capacity" : String) ≠ rawProd)
    (hcpre1 : ∀ e ∈ cpre, entryAvoids years e rawCap = true)
    (hcpre2 : ∀ e ∈ cpre, entryAvoids years e "Production Capacity" = true)
    (hcpost : ∀ e ∈ cpost, entryAvoids years e "Production Capacity" = true)
    (hy1 : "Production " ++ y ≠ "Production Capacity")
    (hy2 : "Production " ++ y ≠ "Production Unit")
    (hy3 : "Production " ++ y ≠ "Project ID")
    (hnodup : (result.map Prod.fst).Nodup) :
    List.lookup ("Production " ++ y) result = some (prodVals.map divCell) ∧
      (prodVals.map divCell)[i]? = some (Cell.num (V / 1000)) ∧
      List.lookup "Production Capacity" result = some (capVals.map divCell) ∧
      ∃ k, List.lookup "Production Unit" result =
        some (List.replicate k (Cell.str "kt/year")) := by
  unfold get_sp_dataset at hok
  generalize hd0 : dropRawProduction corresp df = d0 at hok
  have hrawname : (corresp.lookup "Production").getD "" = rawProd := by
    rw [hsplit, lookup_append_not_key pre _ _ hprenp, List.lookup_cons]
    simp
  have hd0lookup : ∀ nm, nm ≠ rawProd → List.lookup nm d0 = List.lookup nm df := by
    intro nm hnm
    rw [← hd0]
    apply dfLookup_dropRawProduction_ne
    rw [hrawname]
    exact hnm
  cases hrun : processAttrs years corresp d0 with
  | error e =>
    rw [hrun] at hok
    exact absurd hok (by simp)
  | ok df2 =>
    rw [hrun] at hok
    injection hok with hres
    -- production-column tracking
    have hrunP := hrun
    rw [hsplit, processAttrs_append] at hrunP
    rcases hpr : processAttrs years pre d0 with e | dfa
    · rw [hpr] at hrunP
      exact absurd hrunP (by simp)
    · rw [hpr] at hrunP
      simp only [processAttrs] at hrunP
      have hdfa1 : List.lookup (rawProd ++ "_" ++ y ++ "Y") dfa = some prodVals := by
        rw [processAttrs_preserves years pre d0 dfa _ hpr hpre1]
        rw [hd0lookup _ (fun e => hrne1 e.symm)]
        exact hdfcol
      have hdfa2 : List.lookup ("Production " ++ y) dfa = none := by
        rw [processAttrs_preserves years pre d0 dfa _ hpr hpre2]
        rw [hd0lookup _ (fun e => hrne2 e.symm)]
        exact hprodnone
      have hfold : List.lookup ("Production " ++ y)
          (years.foldl (fun d y' => processYear rawProd y' d) dfa) =
          some (prodVals.map divCell) := by
        rw [hyears]
        exact foldYears_establishes rawProd ypre ypost y dfa prodVals hdfa1 hdfa2 hypre hypost
      have hProdDf2 : List.lookup ("Production " ++ y) df2 = some (prodVals.map divCell) := by
        rw [processAttrs_preserves years post _ df2 _ hrunP hpost1]
        exact hfold
      -- capacity-column tracking
      have hrunC := hrun
      rw [hcsplit, processAttrs_append] at hrunC
      rcases hcr : processAttrs years cpre d0 with e | dfc
      · rw [hcr] at hrunC
        exact absurd hrunC (by simp)
      · rw [hcr] at hrunC
        simp only [processAttrs] at hrunC
        have hdfc1 : List.lookup rawCap dfc = some capVals := by
          rw [processAttrs_preserves years cpre d0 dfc _ hcr hcpre1]
          rw [hd0lookup _ hrawcap]
          exact hcap0
        have hdfc2 : List.lookup "Production Capacity" dfc = none := by
          rw [processAttrs_preserves years cpre d0 dfc _ hcr hcpre2]
          rw [hd0lookup _ hrawpc]
          exact hcapnone
        have hhascol : dfHasCol dfc rawCap = true := by
          rw [dfHasCol_eq_isSome, hdfc1]
          rfl
        rw [if_pos hhascol] at hrunC
        have hrenC : List.lookup "Production Capacity"
            (dfRename dfc rawCap "Production Capacity") = some capVals := by
          rw [dfLookup_dfRename_moved dfc _ _ hdfc2]
          exact hdfc1
        have hCapDf2 : List.lookup "Production Capacity" df2 = some capVals := by
          rw [processAttrs_preserves years cpost _ df2 _ hrunC hcpost]
          exact hrenC
        -- final stage: divide capacity, set unit, drop index, reorder
        have hlookup_result : ∀ nm, List.lookup nm result =
            List.lookup nm (dfDrop (dfSetConst (dfDivide1000 df2 "Production Capacity")
              "Production Unit" (Cell.str "kt/year")) "Project ID") := by
          intro nm
          rw [← hres]
          refine dfLookup_of_perm _ _ nm (reorderCols_perm years _) ?_
          have h2 := hnodup
          rw [← hres] at h2
          exact h2
        refine ⟨?_, ?_, ?_, ?_⟩
        · rw [hlookup_result]
          rw [dfLookup_dfDrop_ne _ _ _ hy3]
          rw [dfLookup_dfSetConst_ne _ _ _ _ hy2]
          unfold dfDivide1000
          rw [dfLookup_dfMapCol_ne _ _ _ _ hy1]
          exact hProdDf2
        · rw [List.getElem?_map, hcell]
          rfl
        · rw [hlookup_result]
          rw [dfLookup_dfDrop_ne _ _ _ (by decide)]
          rw [dfLookup_dfSetConst_ne _ _ _ _ (by decide)]
          unfold dfDivide1000
          rw [dfLookup_dfMapCol_self, hCapDf2]
          rfl
        · refine ⟨numRows (dfDivide1000 df2 "Production Capacity"), ?_⟩
          rw [hlookup_result]
          rw [dfLookup_dfDrop_ne _ _ _ (by decide)]
          exact dfLookup_dfSetConst_self _ _ _

/-- Schema mapping of the C7 witness. -/
def c7corresp : List (String × String) :=
  [("Project ID", "PID"), ("Production", "Prod"), ("Production Capacity", "Cap"),
    ("Country", "CNTRY")]

/-- Resolved raw export of the C7 witness: one project with a 2025 production
of 100 source units. -/
def c7df : DataFrame :=
  [("PID", [Cell.num 1]), ("Prod_2025Y", [Cell.num 100]), ("Cap", [Cell.na]),
    ("CNTRY", [Cell.str "CL"])]

/-- The imported table of the C7 witness. -/
def c7result : DataFrame :=
  [("Production Capacity", [Cell.na]), ("Country", [Cell.str "CL"]),
    ("Production Unit", [Cell.str "kt/year"]), ("Production 2025", [Cell.num (100 / 1000)])]

/-- C7 witness: the conversion theorem at a concrete one-project export. -/
theorem C7_witness :
    List.lookup ("Production " ++ "2025") c7result = some ([Cell.num 100].map divCell) ∧
      ([Cell.num 100].map divCell)[0]? = some (Cell.num (100 / 1000)) ∧
      List.lookup "Production Capacity" c7result = some ([Cell.na].map divCell) ∧
      ∃ k, List.lookup "Production Unit" c7result =
        some (List.replicate k (Cell.str "kt/year")) :=
  C7_production_conversion c7corresp [("Project ID", "PID")]
    [("Production Capacity", "Cap"), ("Country", "CNTRY")]
    [("Project ID", "PID"), ("Production", "Prod")] [("Country", "CNTRY")]
    ["2025"] [] [] c7df c7result "Prod" "Cap" "2025" [Cell.num 100] [Cell.na] 0 100
    rfl rfl (by decide) rfl rfl rfl (by norm_num) rfl (by decide) (by decide)
    (by decide) (by decide) (by decide) (by decide) (by decide)
    rfl rfl rfl (by decide) (by decide) (by decide) (by decide) (by decide)
    (by decide) (by decide) (by decide) (by decide)

/- ### group_production_by_two_attributes (utils.py lines 74-80)

utils.py imports pandas, yaml and functools.reduce but never numpy, while the
body of group_production_by_two_attributes evaluates
`production_by_two_attributes.replace(0, np.nan)` (line 78) right after the
pivot_table call of lines 75-77.  The name `np` is unbound in the module, so
every call raises NameError before any zero-pruning happens; the pruning
described by the specification (replace 0 with NaN, drop all-NaN rows, then
columns, refill 0) is unreachable.  The input is modelled as the projection of
the dataframe rows onto (ATTRIBUTE_1 value, ATTRIBUTE_2 value, value-column
cell). -/

/-- `dataset.pivot_table(index=ATTRIBUTE_1, columns=ATTRIBUTE_2,
values=[values], aggfunc='sum', dropna=False)` of lines 75-77: one cell per
(row label, column label) pair holding the sum of the value column over the
matching records. -/
def pivot_table_sum (data : List (String × String × ℚ)) : List (String × String × ℚ) :=
  (uniqueFirst (data.map (fun r => r.1))).flatMap (fun a =>
    (uniqueFirst (data.map (fun r => r.2.1))).map (fun b =>
      (a, b, ((data.filter (fun r => decide (r.1 = a) && decide (r.2.1 = b))).map
        (fun r => r.2.2)).sum)))

/-- utils.group_production_by_two_attributes: the pivot table is built, and the
next expression looks up the unbound module name `np`, raising NameError on
every call. -/
def group_production_by_two_attributes (data : List (String × String × ℚ)) :
    Except String (List (String × String × ℚ)) :=
  let _pivot := pivot_table_sum data
  Except.error "NameError: name np is not defined"

/-- C9: sum_production_by_two_attributes never returns the pruned
cross-tabulation the claim describes — utils.py never imports numpy, so the
`np.nan` of line 78 raises NameError on every input, before any pruning. -/
theorem C9_group_by_two_attributes_namerror (data : List (String × String × ℚ)) :
    group_production_by_two_attributes data =
      Except.error "NameError: name np is not defined" := rfl
